import Mathlib

/-!
Verification development for the contract PDF builder
(`ContractPdfBuilder` and `generateContractPdf`).

The builder drives an external canvas backend (PDFKit) through a sequence of
primitive drawing operations.  We embed the builder shallowly: each method of
the class becomes a Lean function from a document state to the list of canvas
operations it issues together with the successor state.  Content-dependent
behaviour of the external backend (the height by which the cursor advances
after a flowed text draw, the line height used by `moveDown`) is abstracted
by an oracle `Measure`, so every theorem quantified over a `Measure` holds
for every possible backend behaviour.
-/

namespace ContractPdf

/-! ## Locale number formatting (external built-in, modelled from the spec) -/

/-- Decimal digits of `n`, least significant first, with structural fuel
(the fuel `n + 1` always suffices since `n / 10 < n` for `n ≥ 10`). -/
def natDigitsRevAux : ℕ → ℕ → List Char
  | 0, _ => []
  | fuel + 1, n =>
    if n < 10 then [Nat.digitChar n]
    else Nat.digitChar (n % 10) :: natDigitsRevAux fuel (n / 10)

/-- Decimal digits of `n`, least significant first (`125` becomes
`['5','2','1']`). -/
def natDigitsRev (n : ℕ) : List Char := natDigitsRevAux (n + 1) n

/-- Insert a `'.'` grouping separator after every three characters of a
least-significant-first digit list. -/
def group3 : List Char → List Char
  | a :: b :: c :: d :: rest => a :: b :: c :: '.' :: group3 (d :: rest)
  | ds => ds

/-- Decimal rendering of `n` with `'.'` as thousands separator
(`25000` becomes `"25.000"`). -/
def groupThousands (n : ℕ) : String :=
  String.mk ((group3 (natDigitsRev n)).reverse)

/-- Exactly two decimal digits, with a leading zero (`7` becomes `"07"`). -/
def twoDigits (n : ℕ) : String :=
  String.mk [Nat.digitChar (n / 10 % 10), Nat.digitChar (n % 10)]

/-- The number of cents in the amount `q`, i.e. `q * 100` rounded to the
nearest integer (halves up): `⌊q * 100 + 1 / 2⌋` computed on the numerator
and denominator. -/
def centsOf (q : ℚ) : ℤ :=
  Int.fdiv (2 * (q * 100).num + (q * 100).den) (2 * (q * 100).den)

/-- Modelled from the spec: the number-to-string conversion
`paymentAmount.toLocaleString("nl-NL", \x7b minimumFractionDigits: 2 \x7d)`
used by `buildSections` is a JavaScript built-in and not part of this
repository.  Per the spec's fixed locale convention it renders with `'.'` as
thousands separator, `','` as decimal separator and exactly two fraction
digits.  The amount is rounded to cents. -/
def toLocaleStringNlNl (q : ℚ) : String :=
  let cents : ℤ := centsOf q
  let n := cents.natAbs
  (if cents < 0 then "-" else "") ++ groupThousands (n / 100) ++ "," ++ twoDigits (n % 100)

/-! ## Data model (`ContractData`, `ContractSection`, `PdfOptions`) -/

structure ContractData where
  clientName : String
  clientAddress : String
  clientCity : String
  clientEmail : String
  providerName : String
  providerAddress : String
  providerCity : String
  contractNumber : String
  effectiveDate : String
  projectDescription : String
  paymentAmount : ℚ
  paymentTerms : String
  deriving DecidableEq, Repr

structure ContractSection where
  title : String
  items : List String
  deriving DecidableEq, Repr

inductive PageSize where
  | A4
  | LETTER
  deriving DecidableEq, Repr

/-- PDFKit page heights in points (`A4 = 841.89`, `LETTER = 792`). -/
def PageSize.heightPts : PageSize → ℚ
  | .A4 => 841.89
  | .LETTER => 792

/-- PDFKit page widths in points (`A4 = 595.28`, `LETTER = 612`). -/
def PageSize.widthPts : PageSize → ℚ
  | .A4 => 595.28
  | .LETTER => 612

/-- The optional `PdfOptions` record taken by the constructor. -/
structure PdfOptions where
  includeSignatureMarkers : Option Bool := none
  margin : Option ℚ := none
  pageSize : Option PageSize := none

/-- `Required<PdfOptions>`: all fields present. -/
structure ResolvedOptions where
  includeSignatureMarkers : Bool
  margin : ℚ
  pageSize : PageSize

/-- Defaulting performed by the constructor: markers on, margin `72`, `A4`. -/
def resolveOptions (o : PdfOptions) : ResolvedOptions :=
  { includeSignatureMarkers := o.includeSignatureMarkers.getD true
    margin := o.margin.getD 72
    pageSize := o.pageSize.getD .A4 }

/-! ## Canvas backend operations and document state -/

inductive Align where
  | left
  | center
  | justify
  deriving DecidableEq, Repr

structure TextOpts where
  width : Option ℚ := none
  indent : Option ℚ := none
  align : Option Align := none
  lineGap : Option ℚ := none
  deriving DecidableEq, Repr

/-- A primitive canvas operation issued to the backend. `text` carries the
optional explicit position `(px, py)`; `none` means "at the current
cursor". -/
inductive Op where
  | setFontSize (size : ℚ)
  | setFont (font : String)
  | setFillColor (color : String)
  | text (content : String) (px py : Option ℚ) (opts : TextOpts)
  | moveDown (lines : ℚ)
  | moveTo (x y : ℚ)
  | lineTo (x y : ℚ)
  | stroke
  | addPage
  | endDoc
  deriving DecidableEq, Repr

/-- Observable state of the canvas backend: cursor, current style and the
page geometry fixed at construction time. -/
structure DocState where
  x : ℚ
  y : ℚ
  fontSize : ℚ
  font : String
  fillColor : String
  pageHeight : ℚ
  pageWidth : ℚ
  marginLeft : ℚ
  marginRight : ℚ
  marginTop : ℚ
  deriving DecidableEq, Repr

/-- Oracle for the content-dependent behaviour of the external backend:
`textH content size` is the vertical advance produced by a text draw,
`lineH size` the current line height used by `moveDown`. -/
structure Measure where
  textH : String → ℚ → ℚ
  lineH : ℚ → ℚ

/-- State of the freshly constructed document: cursor at the top-left of the
content area, PDFKit defaults for the style (the default black fill colour is
represented canonically as `"#000000"`). -/
def initialState (opts : ResolvedOptions) : DocState :=
  { x := opts.margin
    y := opts.margin
    fontSize := 12
    font := "Helvetica"
    fillColor := "#000000"
    pageHeight := opts.pageSize.heightPts
    pageWidth := opts.pageSize.widthPts
    marginLeft := opts.margin
    marginRight := opts.margin
    marginTop := opts.margin }

/-! Primitive steps: each returns the issued operations and the new state. -/

def doFontSize (s : ℚ) (st : DocState) : List Op × DocState :=
  ([Op.setFontSize s], { st with fontSize := s })

def doFont (f : String) (st : DocState) : List Op × DocState :=
  ([Op.setFont f], { st with font := f })

def doFillColor (c : String) (st : DocState) : List Op × DocState :=
  ([Op.setFillColor c], { st with fillColor := c })

/-- `doc.text(content, opts)`: flowed text at the current cursor; the backend
advances the cursor by the rendered height. -/
def doText (m : Measure) (content : String) (o : TextOpts) (st : DocState) :
    List Op × DocState :=
  ([Op.text content none none o], { st with y := st.y + m.textH content st.fontSize })

/-- `doc.text(content, x, y, opts)`: positioned text; the backend moves the
cursor to the given position and then advances it below the text. -/
def doTextAt (m : Measure) (content : String) (x y : ℚ) (o : TextOpts) (st : DocState) :
    List Op × DocState :=
  ([Op.text content (some x) (some y) o],
    { st with x := x, y := y + m.textH content st.fontSize })

/-- `doc.moveDown(n)`: advance the cursor by `n` line heights. -/
def doMoveDown (m : Measure) (n : ℚ) (st : DocState) : List Op × DocState :=
  ([Op.moveDown n], { st with y := st.y + n * m.lineH st.fontSize })

/-- `doc.addPage()`: new page, cursor reset to the top-left margin corner. -/
def doAddPage (st : DocState) : List Op × DocState :=
  ([Op.addPage], { st with x := st.marginLeft, y := st.marginTop })

/-! ## Section Model Builder (`buildSections`) -/

/-- `buildSections` of the source: the seven contract sections, with the
project description, the formatted payment amount and the payment terms
interpolated. -/
def buildSections (data : ContractData) : List ContractSection :=
  [ { title := "SCOPE OF SERVICES"
      items :=
        [ "The Provider agrees to perform the following services: " ++
            data.projectDescription
        , "All services shall be performed in a professional and workmanlike manner consistent with industry standards."
        , "The Provider shall dedicate sufficient resources and qualified personnel to complete the services in a timely manner."
        , "Any changes to the scope of services must be agreed upon in writing by both parties." ] }
  , { title := "COMPENSATION"
      items :=
        [ "The Client agrees to pay the Provider a total amount of €" ++
            toLocaleStringNlNl data.paymentAmount ++
            " (excluding VAT) for the services described herein."
        , "Payment terms: " ++ data.paymentTerms
        , "All invoices shall be paid within thirty (30) days of receipt unless otherwise specified."
        , "Late payments shall accrue interest at a rate of 1.5% per month or the maximum rate permitted by law, whichever is lower." ] }
  , { title := "TERM AND TERMINATION"
      items :=
        [ "This Agreement shall commence on the Effective Date and shall continue until all services have been completed and accepted by the Client."
        , "Either party may terminate this Agreement for convenience upon thirty (30) days prior written notice to the other party."
        , "Either party may terminate this Agreement immediately upon written notice if the other party materially breaches any provision of this Agreement and fails to cure such breach within fifteen (15) days of receiving written notice thereof."
        , "Upon termination, the Client shall pay the Provider for all services satisfactorily rendered up to the date of termination." ] }
  , { title := "CONFIDENTIALITY"
      items :=
        [ "Each party agrees to maintain the confidentiality of any proprietary or confidential information received from the other party during the term of this Agreement."
        , "Confidential information shall not include information that: (a) is or becomes publicly available through no fault of the receiving party; (b) was rightfully in the receiving party's possession prior to disclosure; or (c) is independently developed by the receiving party."
        , "This confidentiality obligation shall survive the termination of this Agreement for a period of three (3) years." ] }
  , { title := "INTELLECTUAL PROPERTY"
      items :=
        [ "All intellectual property rights in any work product created by the Provider specifically for the Client under this Agreement shall be assigned to the Client upon full payment."
        , "The Provider retains all rights to pre-existing materials, tools, and methodologies used in performing the services."
        , "The Provider grants the Client a non-exclusive, perpetual license to use any pre-existing materials incorporated into the deliverables." ] }
  , { title := "LIMITATION OF LIABILITY"
      items :=
        [ "Neither party shall be liable to the other for any indirect, incidental, special, consequential, or punitive damages arising out of or related to this Agreement."
        , "The Provider's total aggregate liability under this Agreement shall not exceed the total amount paid by the Client under this Agreement."
        , "The limitations set forth in this section shall not apply to breaches of confidentiality obligations or gross negligence or willful misconduct." ] }
  , { title := "GENERAL PROVISIONS"
      items :=
        [ "This Agreement constitutes the entire agreement between the parties with respect to the subject matter hereof and supersedes all prior negotiations, representations, or agreements relating thereto."
        , "This Agreement shall be governed by and construed in accordance with the laws of the Netherlands, without regard to its conflict of laws principles."
        , "Any disputes arising out of or in connection with this Agreement shall be submitted to the exclusive jurisdiction of the courts of Amsterdam, the Netherlands."
        , "Any amendments or modifications to this Agreement must be made in writing and signed by both parties."
        , "If any provision of this Agreement is held to be invalid or unenforceable, the remaining provisions shall continue in full force and effect." ] } ]

/-! ## Layout Engine: the private render methods of `ContractPdfBuilder` -/

/-- The literal client anchor token `\x7b\x7bClientSignature\x7d\x7d`. -/
def clientToken : String := "\x7b\x7bClientSignature\x7d\x7d"

/-- The literal provider anchor token `\x7b\x7bProviderSignature\x7d\x7d`. -/
def providerToken : String := "\x7b\x7bProviderSignature\x7d\x7d"

/-- `renderHeader`: centred title, grey contract number line, reset to black. -/
def renderHeader (m : Measure) (data : ContractData) (st : DocState) :
    List Op × DocState :=
  let p1 := doFontSize 20 st
  let p2 := doFont "Helvetica-Bold" p1.2
  let p3 := doText m "SERVICE AGREEMENT" { align := some .center } p2.2
  let p4 := doMoveDown m 0.5 p3.2
  let p5 := doFontSize 10 p4.2
  let p6 := doFont "Helvetica" p5.2
  let p7 := doFillColor "#666666" p6.2
  let p8 := doText m ("Contract No: " ++ data.contractNumber) { align := some .center } p7.2
  let p9 := doFillColor "#000000" p8.2
  let p10 := doMoveDown m 2 p9.2
  (p1.1 ++ p2.1 ++ p3.1 ++ p4.1 ++ p5.1 ++ p6.1 ++ p7.1 ++ p8.1 ++ p9.1 ++ p10.1, p10.2)

/-- `renderPreamble`: party information and the covenant paragraph. -/
def renderPreamble (m : Measure) (data : ContractData) (st : DocState) :
    List Op × DocState :=
  let p1 := doFontSize 11 st
  let p2 := doFont "Helvetica" p1.2
  let p3 := doText m ("This Service Agreement (\"Agreement\") is entered into as of " ++
    data.effectiveDate ++ " by and between:") {} p2.2
  let p4 := doMoveDown m 1 p3.2
  let p5 := doFont "Helvetica-Bold" p4.2
  let p6 := doText m data.clientName {} p5.2
  let p7 := doFont "Helvetica" p6.2
  let p8 := doText m data.clientAddress {} p7.2
  let p9 := doText m data.clientCity {} p8.2
  let p10 := doText m ("Email: " ++ data.clientEmail) {} p9.2
  let p11 := doFont "Helvetica-Oblique" p10.2
  let p12 := doText m "(hereinafter referred to as the \"Client\")" {} p11.2
  let p13 := doMoveDown m 1 p12.2
  let p14 := doFont "Helvetica" p13.2
  let p15 := doText m "and" { align := some .center } p14.2
  let p16 := doMoveDown m 1 p15.2
  let p17 := doFont "Helvetica-Bold" p16.2
  let p18 := doText m data.providerName {} p17.2
  let p19 := doFont "Helvetica" p18.2
  let p20 := doText m data.providerAddress {} p19.2
  let p21 := doText m data.providerCity {} p20.2
  let p22 := doFont "Helvetica-Oblique" p21.2
  let p23 := doText m "(hereinafter referred to as the \"Provider\")" {} p22.2
  let p24 := doMoveDown m 2 p23.2
  let p25 := doFont "Helvetica" p24.2
  let p26 := doText m ("NOW, THEREFORE, in consideration of the mutual covenants and agreements set forth herein, " ++
    "and for other good and valuable consideration, the receipt and sufficiency of which are hereby " ++
    "acknowledged, the parties agree as follows:") {} p25.2
  let p27 := doMoveDown m 2 p26.2
  (p1.1 ++ p2.1 ++ p3.1 ++ p4.1 ++ p5.1 ++ p6.1 ++ p7.1 ++ p8.1 ++ p9.1 ++ p10.1 ++
    p11.1 ++ p12.1 ++ p13.1 ++ p14.1 ++ p15.1 ++ p16.1 ++ p17.1 ++ p18.1 ++ p19.1 ++
    p20.1 ++ p21.1 ++ p22.1 ++ p23.1 ++ p24.1 ++ p25.1 ++ p26.1 ++ p27.1, p27.2)

/-- The loop body of `renderSection` over the items, with the running
1-based `itemNumber`; each item is drawn as `"{sectionNumber}.{itemNumber}  {item}"`
with indent `25`, justified, line gap `2`. -/
def renderItems (m : Measure) (sectionNumber itemNumber : ℕ) (items : List String)
    (st : DocState) : List Op × DocState :=
  match items with
  | [] => ([], st)
  | item :: rest =>
    let p1 := doText m (toString sectionNumber ++ "." ++ toString itemNumber ++ "  " ++ item)
      { indent := some 25, align := some .justify, lineGap := some 2 } st
    let p2 := doMoveDown m 0.5 p1.2
    let p3 := renderItems m sectionNumber (itemNumber + 1) rest p2.2
    (p1.1 ++ p2.1 ++ p3.1, p3.2)

/-- `renderSection`: page-break check against a reserved space of `100`
points, then the numbered title and the numbered items. -/
def renderSection (m : Measure) (opts : ResolvedOptions) (sectionNumber : ℕ)
    (sec : ContractSection) (st : DocState) : List Op × DocState :=
  let p0 := if st.y > st.pageHeight - opts.margin - 100 then doAddPage st else ([], st)
  let p1 := doFontSize 12 p0.2
  let p2 := doFont "Helvetica-Bold" p1.2
  let p3 := doText m (toString sectionNumber ++ ". " ++ sec.title) {} p2.2
  let p4 := doMoveDown m 0.5 p3.2
  let p5 := doFontSize 11 p4.2
  let p6 := doFont "Helvetica" p5.2
  let p7 := renderItems m sectionNumber 1 sec.items p6.2
  let p8 := doMoveDown m 0.5 p7.2
  (p0.1 ++ p1.1 ++ p2.1 ++ p3.1 ++ p4.1 ++ p5.1 ++ p6.1 ++ p7.1 ++ p8.1, p8.2)

/-- The loop of `renderSections`, with the running 1-based section number. -/
def renderSectionList (m : Measure) (opts : ResolvedOptions) (sectionNumber : ℕ)
    (sections : List ContractSection) (st : DocState) : List Op × DocState :=
  match sections with
  | [] => ([], st)
  | sec :: rest =>
    let p1 := renderSection m opts sectionNumber sec st
    let p2 := renderSectionList m opts (sectionNumber + 1) rest p1.2
    (p1.1 ++ p2.1, p2.2)

/-- `renderSections`: build the section model and render it starting at
section number `1`. -/
def renderSections (m : Measure) (opts : ResolvedOptions) (data : ContractData)
    (st : DocState) : List Op × DocState :=
  renderSectionList m opts 1 (buildSections data) st

/-- `renderSignatureRow`: role label at `(x, y)`, the near-invisible anchor
token at `(x, y + 25)` when markers are enabled, the ruled line at `y + 85`
spanning `width - 20`, and the name/title/date lines at `y + 93`, `y + 108`
and `y + 123`. -/
def renderSignatureRow (m : Measure) (opts : ResolvedOptions) (x y width : ℚ)
    (label name signatureMarker : String) (st : DocState) : List Op × DocState :=
  let p1 := doFontSize 10 st
  let p2 := doFont "Helvetica" p1.2
  let p3 := doTextAt m label x y { width := some width } p2.2
  let pm :=
    if opts.includeSignatureMarkers then
      let q1 := doFontSize 1 p3.2
      let q2 := doFillColor "#ffffff" q1.2
      let q3 := doTextAt m signatureMarker x (y + 25) {} q2.2
      let q4 := doFillColor "#000000" q3.2
      (q1.1 ++ q2.1 ++ q3.1 ++ q4.1, q4.2)
    else ([], p3.2)
  let lineY := y + 85
  let p4 : List Op × DocState :=
    ([Op.moveTo x lineY, Op.lineTo (x + width - 20) lineY, Op.stroke], pm.2)
  let p5 := doFontSize 10 p4.2
  let p6 := doFont "Helvetica" p5.2
  let p7 := doTextAt m ("Name: " ++ name) x (lineY + 8) { width := some width } p6.2
  let p8 := doTextAt m "Title: _______________________" x (lineY + 23) { width := some width } p7.2
  let p9 := doTextAt m "Date: _______________________" x (lineY + 38) { width := some width } p8.2
  (p1.1 ++ p2.1 ++ p3.1 ++ pm.1 ++ p4.1 ++ p5.1 ++ p6.1 ++ p7.1 ++ p8.1 ++ p9.1, p9.2)

/-- The opening of `renderSignatureBlock` up to the point where the client
row's starting `y` is read: page-break check against a reserved space of
`400` points, spacing, and the witness sentence. -/
def sigBlockIntro (m : Measure) (opts : ResolvedOptions) (st : DocState) :
    List Op × DocState :=
  let p0 := if st.y > st.pageHeight - opts.margin - 400 then doAddPage st else ([], st)
  let p1 := doMoveDown m 2 p0.2
  let p2 := doFontSize 11 p1.2
  let p3 := doFont "Helvetica" p2.2
  let p4 := doText m "IN WITNESS WHEREOF, the parties hereto have executed this Agreement as of the date first written above."
    { align := some .justify } p3.2
  let p5 := doMoveDown m 3 p4.2
  (p0.1 ++ p1.1 ++ p2.1 ++ p3.1 ++ p4.1 ++ p5.1, p5.2)

/-- `renderSignatureBlock`: the intro, the client row at the current cursor,
a forced advance to `clientStartY + 170`, the provider row there, and a
forced advance to `providerStartY + 140`. -/
def renderSignatureBlock (m : Measure) (opts : ResolvedOptions) (data : ContractData)
    (st : DocState) : List Op × DocState :=
  let intro := sigBlockIntro m opts st
  let pageWidth := st.pageWidth - st.marginLeft - st.marginRight
  let signatureWidth := pageWidth * 0.75
  let leftX := st.marginLeft
  let clientStartY := intro.2.y
  let row1 := renderSignatureRow m opts leftX clientStartY signatureWidth
    "CLIENT" data.clientName clientToken intro.2
  let s1 := { row1.2 with y := clientStartY + 170 }
  let providerStartY := s1.y
  let row2 := renderSignatureRow m opts leftX providerStartY signatureWidth
    "PROVIDER" data.providerName providerToken s1
  let s2 := { row2.2 with y := providerStartY + 140 }
  (intro.1 ++ row1.1 ++ row2.1, s2)

/-! ## Document Assembler (`build`) -/

/-- The synchronous part of `build`: the four phases in order, then the
end-of-input signal `doc.end()`. -/
def buildOps (m : Measure) (opts : ResolvedOptions) (data : ContractData)
    (st : DocState) : List Op × DocState :=
  let p1 := renderHeader m data st
  let p2 := renderPreamble m data p1.2
  let p3 := renderSections m opts data p2.2
  let p4 := renderSignatureBlock m opts data p3.2
  (p1.1 ++ p2.1 ++ p3.1 ++ p4.1 ++ [Op.endDoc], p4.2)

/-- A whole-document run from the options as resolved by the constructor. -/
def buildFrom (m : Measure) (opts : ResolvedOptions) (data : ContractData) :
    List Op × DocState :=
  buildOps m opts data (initialState opts)

/-- `new ContractPdfBuilder(data, options)` followed by the draw phase of
`build()`. -/
def buildDoc (m : Measure) (data : ContractData) (popts : PdfOptions) :
    List Op × DocState :=
  buildFrom m (resolveOptions popts) data

/-- Asynchronous notifications emitted by the canvas backend after the draw
calls: byte chunks, successful completion, or a failure. -/
inductive BEvent where
  | chunk (bytes : List ℕ)
  | ended
  | failed (e : String)
  deriving DecidableEq, Repr

/-- The settling of the promise returned by `build()`. -/
inductive BuildOutcome where
  | success (buf : List ℕ)
  | failure (e : String)
  | pending
  deriving DecidableEq, Repr

/-- The promise semantics of the registered `data`/`end`/`error` handlers:
chunks are accumulated, the first `ended` resolves with the concatenation,
the first `failed` rejects, and with neither the promise stays pending. -/
def settle : List BEvent → List ℕ → BuildOutcome
  | [], _ => .pending
  | BEvent.chunk c :: rest, acc => settle rest (acc ++ c)
  | BEvent.ended :: _, acc => .success acc
  | BEvent.failed e :: _, _ => .failure e

/-- Issuing the draw calls synchronously: `throwOn` is the oracle for the
first exception the backend throws, if any. -/
def issueOps (throwOn : Op → Option String) : List Op → Option String
  | [] => none
  | op :: rest =>
    match throwOn op with
    | some e => some e
    | none => issueOps throwOn rest

/-- `build()`: handlers are registered first; if any draw call throws
synchronously, the `catch` rejects the promise (asynchronous backend events
cannot have settled it yet); otherwise the promise settles from the backend's
event stream. -/
def build (m : Measure) (data : ContractData) (popts : PdfOptions)
    (throwOn : Op → Option String) (events : List BEvent) : BuildOutcome :=
  match issueOps throwOn (buildDoc m data popts).1 with
  | some e => .failure e
  | none => settle events []

/-! ## Statement vocabulary -/

/-- The opening-brace character, written by code point to keep string
literals free of raw braces. -/
def braceChar : Char := Char.ofNat 123

/-- `true` iff the string contains no opening brace. -/
def braceFree (s : String) : Bool := s.data.all (fun c => !(c = braceChar))

/-- `true` iff `pat` occurs as a contiguous substring of `s`. -/
def containsSub (s pat : String) : Bool :=
  (List.range (s.length + 1)).any (fun i => pat.data.isPrefixOf (s.data.drop i))

/-- `true` iff the operation is a text draw whose content contains `tok`. -/
def opMentions (tok : String) : Op → Bool
  | .text s _ _ _ => containsSub s tok
  | _ => false

/-- The content of a numbered-item text draw: flowed text with the item
indent of `25` points.  All other operations yield `none`. -/
def itemContent : Op → Option String
  | .text s none none o => if o.indent = some 25 then some s else none
  | _ => none

/-- The texts expected for the items of one section: section number `n`,
item numbers counting up from `k`. -/
def labelItems (n k : ℕ) : List String → List String
  | [] => []
  | it :: rest => (toString n ++ "." ++ toString k ++ "  " ++ it) :: labelItems n (k + 1) rest

/-- The item texts expected for a list of sections numbered from `n`, each
section's items numbered from `1`. -/
def expectedItemTexts (n : ℕ) : List ContractSection → List String
  | [] => []
  | s :: rest => labelItems n 1 s.items ++ expectedItemTexts (n + 1) rest

/-- The operations of a signature row up to the marker: font setup and the
role label at `(x, y)`. -/
def rowHead (x y w : ℚ) (label : String) : List Op :=
  [Op.setFontSize 10, Op.setFont "Helvetica",
    Op.text label (some x) (some y) { width := some w }]

/-- The four marker operations: 1-point font, white fill, the anchor token
at `(x, y + 25)`, fill restored to black. -/
def sigMarkerOps (x y : ℚ) (marker : String) : List Op :=
  [Op.setFontSize 1, Op.setFillColor "#ffffff",
    Op.text marker (some x) (some (y + 25)) {}, Op.setFillColor "#000000"]

/-- The operations of a signature row after the marker: the ruled line at
`y + 85` spanning `w - 20`, and the name, title and date lines at `y + 93`,
`y + 108` and `y + 123`. -/
def rowTail (x y w : ℚ) (name : String) : List Op :=
  [Op.moveTo x (y + 85), Op.lineTo (x + w - 20) (y + 85), Op.stroke,
    Op.setFontSize 10, Op.setFont "Helvetica",
    Op.text ("Name: " ++ name) (some x) (some (y + 93)) { width := some w },
    Op.text "Title: _______________________" (some x) (some (y + 108)) { width := some w },
    Op.text "Date: _______________________" (some x) (some (y + 123)) { width := some w }]

/-- The fill colour in effect after one operation executes with colour `c`
in effect. -/
def nextColor (op : Op) (c : String) : String :=
  match op with
  | .setFillColor col => col
  | _ => c

/-- Each operation paired with the fill colour in effect when it is
executed, starting from colour `c`. -/
def fillAnnot : List Op → String → List (Op × String)
  | [], _ => []
  | op :: rest, c => (op, c) :: fillAnnot rest (nextColor op c)

/-- The fill colour in effect after executing the operations, starting from
colour `c`. -/
def colorAfter : List Op → String → String
  | [], c => c
  | op :: rest, c => colorAfter rest (nextColor op c)

/-! ## Helper lemmas: the locale formatter -/

theorem digitChar_isDigit (k : ℕ) (h : k < 10) : (Nat.digitChar k).isDigit = true := by
  interval_cases k <;> decide

theorem natDigitsRevAux_isDigit (fuel : ℕ) :
    ∀ n, ∀ c ∈ natDigitsRevAux fuel n, c.isDigit = true := by
  induction fuel with
  | zero => intro n c hc; simp [natDigitsRevAux] at hc
  | succ fuel ih =>
    intro n c hc
    rw [natDigitsRevAux] at hc
    by_cases h : n < 10
    · rw [if_pos h] at hc
      simp only [List.mem_singleton] at hc
      exact hc ▸ digitChar_isDigit n h
    · rw [if_neg h] at hc
      rcases List.mem_cons.mp hc with rfl | hc
      · exact digitChar_isDigit _ (Nat.mod_lt _ (by omega))
      · exact ih (n / 10) c hc

theorem natDigitsRev_isDigit (n : ℕ) : ∀ c ∈ natDigitsRev n, c.isDigit = true :=
  natDigitsRevAux_isDigit (n + 1) n

theorem group3_subset (ds : List Char) : ∀ c ∈ group3 ds, c ∈ ds ∨ c = '.' := by
  induction ds using group3.induct with
  | case1 a b c0 d rest ih =>
    intro c hc
    rw [group3] at hc
    rcases List.mem_cons.mp hc with rfl | hc
    · exact Or.inl (by simp)
    rcases List.mem_cons.mp hc with rfl | hc
    · exact Or.inl (by simp)
    rcases List.mem_cons.mp hc with rfl | hc
    · exact Or.inl (by simp)
    rcases List.mem_cons.mp hc with rfl | hc
    · exact Or.inr rfl
    · rcases ih c hc with h | h
      · exact Or.inl (by simp only [List.mem_cons] at h ⊢; tauto)
      · exact Or.inr h
  | case2 ds h =>
    intro c hc
    rw [group3] at hc
    · exact Or.inl hc
    · exact h

theorem groupThousands_chars (n : ℕ) :
    ∀ c ∈ (groupThousands n).data, c.isDigit = true ∨ c = '.' := by
  intro c hc
  simp only [groupThousands, String.data] at hc
  rw [List.mem_reverse] at hc
  rcases group3_subset _ c hc with h | h
  · exact Or.inl (natDigitsRev_isDigit n c h)
  · exact Or.inr h

theorem twoDigits_length (n : ℕ) : (twoDigits n).length = 2 := rfl

theorem twoDigits_chars (n : ℕ) : ∀ c ∈ (twoDigits n).data, c.isDigit = true := by
  intro c hc
  simp only [twoDigits, String.data, List.mem_cons, List.not_mem_nil, or_false] at hc
  rcases hc with rfl | rfl
  · exact digitChar_isDigit _ (Nat.mod_lt _ (by omega))
  · exact digitChar_isDigit _ (Nat.mod_lt _ (by omega))

/-- When the amount is an exact integer number of cents, `centsOf` returns
it. -/
theorem centsOf_intCast (q : ℚ) (n : ℤ) (h : q * 100 = (n : ℚ)) : centsOf q = n := by
  unfold centsOf
  rw [h, Rat.num_intCast, Rat.den_intCast]
  rw [Int.fdiv_eq_ediv _ (by omega)]
  omega

theorem toLocaleStringNlNl_at_25000 : toLocaleStringNlNl 25000 = "25.000,00" := by
  have h : centsOf 25000 = 2500000 := centsOf_intCast _ _ (by norm_num)
  unfold toLocaleStringNlNl
  rw [h]
  decide

/-! ## Claim theorems: the Section Model Builder -/

/-- Claim C4: for every `ContractData` value, `buildSections` returns exactly
seven sections, with the fixed titles Scope of Services, Compensation, Term
and Termination, Confidentiality, Intellectual Property, Limitation of
Liability, General Provisions, in that order, regardless of the data. -/
theorem buildSections_seven_fixed_titles (data : ContractData) :
    (buildSections data).length = 7 ∧
    (buildSections data).map ContractSection.title =
      ["SCOPE OF SERVICES", "COMPENSATION", "TERM AND TERMINATION",
        "CONFIDENTIALITY", "INTELLECTUAL PROPERTY", "LIMITATION OF LIABILITY",
        "GENERAL PROVISIONS"] :=
  ⟨rfl, rfl⟩

/-- Claim C9: `buildSections` reads only `projectDescription`,
`paymentAmount` and `paymentTerms`; two data values agreeing on those three
fields produce equal section lists. -/
theorem buildSections_depends_only_on_three_fields (d1 d2 : ContractData)
    (h1 : d1.projectDescription = d2.projectDescription)
    (h2 : d1.paymentAmount = d2.paymentAmount)
    (h3 : d1.paymentTerms = d2.paymentTerms) :
    buildSections d1 = buildSections d2 := by
  simp only [buildSections, h1, h2, h3]

/-- A sample contract data value used to instantiate universally quantified
theorems at a concrete input. -/
def sampleData : ContractData :=
  { clientName := "Acme Corp BV"
    clientAddress := "Keizersgracht 1"
    clientCity := "1015 CC Amsterdam"
    clientEmail := "legal@acme.example"
    providerName := "Dev Studio BV"
    providerAddress := "Herengracht 2"
    providerCity := "1016 BR Amsterdam"
    contractNumber := "CT-2024-001"
    effectiveDate := "January 1, 2024"
    projectDescription := "Development of a web application"
    paymentAmount := 25000
    paymentTerms := "50% upfront, 50% on delivery"
    }

/-- Witness for C9: changing only the client name and email leaves the
section list unchanged. -/
theorem buildSections_depends_only_on_three_fields_witness :
    buildSections sampleData =
      buildSections { sampleData with
        clientName := "Other Client NV", clientEmail := "billing@other.example" } :=
  buildSections_depends_only_on_three_fields _ _ rfl rfl rfl

/-- Claim C6: the Compensation section's first item embeds the payment
amount formatted with the euro sign prefixed; the formatted amount always
consists of a grouped integer part (digits, `'.'` thousands separators and
possibly a leading sign), a `','` decimal separator and exactly two fraction
digits; and `25000` formats as `25.000,00`. -/
theorem compensation_currency_formatting :
    (∀ data : ContractData,
      ((buildSections data)[1]?).map ContractSection.items =
        some
          [ "The Client agrees to pay the Provider a total amount of €" ++
              toLocaleStringNlNl data.paymentAmount ++
              " (excluding VAT) for the services described herein."
          , "Payment terms: " ++ data.paymentTerms
          , "All invoices shall be paid within thirty (30) days of receipt unless otherwise specified."
          , "Late payments shall accrue interest at a rate of 1.5% per month or the maximum rate permitted by law, whichever is lower." ]) ∧
    (∀ q : ℚ, ∃ g f : String,
      toLocaleStringNlNl q = g ++ "," ++ f ∧
      f.length = 2 ∧
      (∀ c ∈ f.data, c.isDigit = true) ∧
      (∀ c ∈ g.data, c.isDigit = true ∨ c = '.' ∨ c = '-')) ∧
    toLocaleStringNlNl 25000 = "25.000,00" := by
  refine ⟨fun data => rfl, fun q => ?_, toLocaleStringNlNl_at_25000⟩
  refine ⟨(if centsOf q < 0 then "-" else "") ++ groupThousands ((centsOf q).natAbs / 100),
    twoDigits ((centsOf q).natAbs % 100), ?_, twoDigits_length _, twoDigits_chars _, ?_⟩
  · unfold toLocaleStringNlNl
    simp [String.append_assoc]
  · intro c hc
    rw [String.data_append] at hc
    rcases List.mem_append.mp hc with h | h
    · split at h
      · simp only [String.data, List.mem_singleton] at h
        exact Or.inr (Or.inr h)
      · simp only [String.data, List.not_mem_nil] at h
    · rcases groupThousands_chars _ c h with h | h
      · exact Or.inl h
      · exact Or.inr (Or.inl h)

/-! ## Helper lemmas: page breaks and item numbering -/

theorem addPage_not_mem_renderItems (m : Measure) (sn : ℕ) :
    ∀ (items : List String) (k : ℕ) (st : DocState),
      Op.addPage ∉ (renderItems m sn k items st).1 := by
  intro items
  induction items with
  | nil => intro k st; simp [renderItems]
  | cons it rest ih =>
    intro k st
    simpa [renderItems, doText, doMoveDown] using ih (k + 1) _

theorem addPage_not_mem_renderSignatureRow (m : Measure) (opts : ResolvedOptions)
    (x y w : ℚ) (l nm mk : String) (st : DocState) :
    Op.addPage ∉ (renderSignatureRow m opts x y w l nm mk st).1 := by
  by_cases h : opts.includeSignatureMarkers = true <;>
    simp [renderSignatureRow, h, doFontSize, doFont, doFillColor, doTextAt]

theorem filterMap_itemContent_renderItems (m : Measure) (sn : ℕ) :
    ∀ (items : List String) (k : ℕ) (st : DocState),
      (renderItems m sn k items st).1.filterMap itemContent = labelItems sn k items := by
  intro items
  induction items with
  | nil => intro k st; simp [renderItems, labelItems]
  | cons it rest ih =>
    intro k st
    simp [renderItems, doText, doMoveDown, labelItems, itemContent, ih (k + 1)]

theorem filterMap_itemContent_renderSection (m : Measure) (opts : ResolvedOptions)
    (n : ℕ) (sec : ContractSection) (st : DocState) :
    (renderSection m opts n sec st).1.filterMap itemContent = labelItems n 1 sec.items := by
  by_cases h : st.y > st.pageHeight - opts.margin - 100 <;>
    simp [renderSection, h, doAddPage, doFontSize, doFont, doText, doMoveDown, itemContent,
      filterMap_itemContent_renderItems]

theorem filterMap_itemContent_renderSectionList (m : Measure) (opts : ResolvedOptions) :
    ∀ (sections : List ContractSection) (n : ℕ) (st : DocState),
      (renderSectionList m opts n sections st).1.filterMap itemContent =
        expectedItemTexts n sections := by
  intro sections
  induction sections with
  | nil => intro n st; simp [renderSectionList, expectedItemTexts]
  | cons sec rest ih =>
    intro n st
    simp [renderSectionList, expectedItemTexts, filterMap_itemContent_renderSection, ih (n + 1)]

theorem labelItems_mem (n : ℕ) :
    ∀ (items : List String) (k j : ℕ) (it : String), items[j]? = some it →
      (toString n ++ "." ++ toString (k + j) ++ "  " ++ it) ∈ labelItems n k items := by
  intro items
  induction items with
  | nil => intro k j it h; simp at h
  | cons hd rest ih =>
    intro k j it h
    match j with
    | 0 =>
      simp only [List.getElem?_cons_zero, Option.some.injEq] at h
      subst h
      simp [labelItems]
    | j + 1 =>
      simp only [List.getElem?_cons_succ] at h
      have := ih (k + 1) j it h
      rw [labelItems]
      right
      have harith : k + 1 + j = k + (j + 1) := by omega
      rw [harith] at this
      exact this

theorem expectedItemTexts_mem :
    ∀ (sections : List ContractSection) (n i j : ℕ) (sec : ContractSection) (it : String),
      sections[i]? = some sec → sec.items[j]? = some it →
      (toString (n + i) ++ "." ++ toString (1 + j) ++ "  " ++ it) ∈
        expectedItemTexts n sections := by
  intro sections
  induction sections with
  | nil => intro n i j sec it h; simp at h
  | cons hd rest ih =>
    intro n i j sec it h hj
    match i with
    | 0 =>
      simp only [List.getElem?_cons_zero, Option.some.injEq] at h
      subst h
      rw [expectedItemTexts]
      refine List.mem_append_left _ ?_
      simpa using labelItems_mem n _ 1 j it hj
    | i + 1 =>
      simp only [List.getElem?_cons_succ] at h
      rw [expectedItemTexts]
      refine List.mem_append_right _ ?_
      have := ih (n + 1) i j sec it h hj
      have harith : n + 1 + i = n + (i + 1) := by omega
      rw [harith] at this
      exact this

/-! ## Claim theorems: page breaks and numbering -/

/-- Claim C1: before a section header a new page is inserted if and only if
the cursor satisfies `y > pageHeight - margin - 100` (strict), and before
the signature block if and only if `y > pageHeight - margin - 400`, for
every cursor position, margin and page geometry. -/
theorem page_break_thresholds :
    (∀ (m : Measure) (opts : ResolvedOptions) (n : ℕ) (sec : ContractSection)
      (st : DocState),
      Op.addPage ∈ (renderSection m opts n sec st).1 ↔
        st.y > st.pageHeight - opts.margin - 100) ∧
    (∀ (m : Measure) (opts : ResolvedOptions) (data : ContractData) (st : DocState),
      Op.addPage ∈ (renderSignatureBlock m opts data st).1 ↔
        st.y > st.pageHeight - opts.margin - 400) := by
  constructor
  · intro m opts n sec st
    by_cases h : st.y > st.pageHeight - opts.margin - 100 <;>
      simp [renderSection, h, doAddPage, doFontSize, doFont, doText, doMoveDown,
        addPage_not_mem_renderItems]
  · intro m opts data st
    by_cases h : st.y > st.pageHeight - opts.margin - 400 <;>
      simp [renderSignatureBlock, sigBlockIntro, h, doAddPage, doFontSize, doFont, doText,
        doMoveDown, addPage_not_mem_renderSignatureRow]

/-- Claim C5: the text contents of the numbered-item draws produced by the
section renderer are exactly the items labelled `"{i}.{j}"` by 1-based
section position `i` and item position `j`; the numbers come from list
order alone, for an arbitrary section list.  Consequently, for every section
at 0-based index `i` and item at 0-based index `j`, the item text
`"{i+1}.{j+1}  item"` is drawn. -/
theorem item_labels_from_list_order :
    (∀ (m : Measure) (opts : ResolvedOptions) (sections : List ContractSection)
      (st : DocState),
      (renderSectionList m opts 1 sections st).1.filterMap itemContent =
        expectedItemTexts 1 sections) ∧
    (∀ (m : Measure) (opts : ResolvedOptions) (data : ContractData) (st : DocState)
      (i j : ℕ) (sec : ContractSection) (it : String),
      (buildSections data)[i]? = some sec → sec.items[j]? = some it →
      (toString (i + 1) ++ "." ++ toString (j + 1) ++ "  " ++ it) ∈
        (renderSections m opts data st).1.filterMap itemContent) := by
  constructor
  · intro m opts sections st
    exact filterMap_itemContent_renderSectionList m opts sections 1 st
  · intro m opts data st i j sec it hi hj
    rw [renderSections, filterMap_itemContent_renderSectionList]
    have := expectedItemTexts_mem (buildSections data) 1 i j sec it hi hj
    have h1 : 1 + i = i + 1 := by omega
    have h2 : 1 + j = j + 1 := by omega
    rw [h1, h2] at this
    exact this

/-- Witness for C5's second conjunct at a concrete position: in the document
built from `sampleData`, section 2 item 2 is drawn with label `2.2`. -/
theorem item_labels_from_list_order_witness :
    ("2" ++ "." ++ "2" ++ "  " ++ ("Payment terms: " ++ sampleData.paymentTerms)) ∈
      (renderSections { textH := fun _ _ => 0, lineH := fun _ => 0 }
        (resolveOptions {}) sampleData
        (initialState (resolveOptions {}))).1.filterMap itemContent := by
  have := item_labels_from_list_order.2
    { textH := fun _ _ => 0, lineH := fun _ => 0 } (resolveOptions {}) sampleData
    (initialState (resolveOptions {})) 1 1
    ((buildSections sampleData).get ⟨1, by simp [buildSections]⟩)
    ("Payment terms: " ++ sampleData.paymentTerms) (by rfl) (by rfl)
  exact this

/-! ## Helper lemmas: signature rows -/

/-- The operations of a signature row, in closed form: they depend only on
the arguments, never on the incoming document state. -/
theorem renderSignatureRow_ops (m : Measure) (opts : ResolvedOptions) (x y w : ℚ)
    (l nm mk : String) (st : DocState) :
    (renderSignatureRow m opts x y w l nm mk st).1 =
      rowHead x y w l ++
      (if opts.includeSignatureMarkers then sigMarkerOps x y mk else []) ++
      rowTail x y w nm := by
  by_cases h : opts.includeSignatureMarkers = true <;>
  · simp [renderSignatureRow, h, rowHead, sigMarkerOps, rowTail,
      doFontSize, doFont, doFillColor, doTextAt]
    refine ⟨by ring, by ring, by ring⟩

/-! ## Claim theorems: signature block geometry -/

/-- Claim C2: for every starting cursor `y0` of the client signature row
(the cursor after the block's intro), the provider row is rendered at
exactly `y0 + 170` and the cursor after the block equals the provider start
plus `140`, independent of the name strings and of the backend's measured
text heights; and within each row the ruled line is at `startY + 85`
spanning `signatureWidth - 20` and the name/title/date lines are at
`startY + 93`, `startY + 108` and `startY + 123` (the `rowTail` offsets). -/
theorem signature_block_fixed_offsets :
    (∀ (m : Measure) (opts : ResolvedOptions) (data : ContractData) (st : DocState),
      (renderSignatureBlock m opts data st).1 =
        (sigBlockIntro m opts st).1 ++
        (renderSignatureRow m opts st.marginLeft (sigBlockIntro m opts st).2.y
          ((st.pageWidth - st.marginLeft - st.marginRight) * 0.75)
          "CLIENT" data.clientName clientToken (sigBlockIntro m opts st).2).1 ++
        (renderSignatureRow m opts st.marginLeft ((sigBlockIntro m opts st).2.y + 170)
          ((st.pageWidth - st.marginLeft - st.marginRight) * 0.75)
          "PROVIDER" data.providerName providerToken st).1 ∧
      (renderSignatureBlock m opts data st).2.y =
        ((sigBlockIntro m opts st).2.y + 170) + 140) ∧
    (∀ (m : Measure) (opts : ResolvedOptions) (x y w : ℚ) (l nm mk : String)
      (st : DocState),
      (renderSignatureRow m opts x y w l nm mk st).1 =
        rowHead x y w l ++
        (if opts.includeSignatureMarkers then sigMarkerOps x y mk else []) ++
        rowTail x y w nm) := by
  refine ⟨fun m opts data st => ⟨?_, rfl⟩, renderSignatureRow_ops⟩
  simp only [renderSignatureBlock, renderSignatureRow_ops]

/-! ## Claim theorems: assembler failure channel and determinism -/

/-- The backend oracle that measures every text as height `0`; used to
instantiate theorems at concrete inputs. -/
def constMeasure : Measure := { textH := fun _ _ => 0, lineH := fun _ => 0 }

theorem settle_failed :
    ∀ (cs : List (List ℕ)) (acc : List ℕ) (e : String) (rest : List BEvent),
      settle (cs.map BEvent.chunk ++ BEvent.failed e :: rest) acc = .failure e := by
  intro cs
  induction cs with
  | nil => intro acc e rest; simp [settle]
  | cons c cs ih => intro acc e rest; simpa [settle] using ih (acc ++ c) e rest

theorem issueOps_none : ∀ l : List Op, issueOps (fun _ => none) l = none := by
  intro l
  induction l with
  | nil => rfl
  | cons op rest ih => simpa [issueOps] using ih

/-- Claim C7: `build` resolves to a failure whenever a draw call throws
synchronously (the `catch` rejects with that error) or the backend's event
stream signals failure after any number of data chunks (including after
end-of-input, since all backend events are delivered after the synchronous
draw phase); both failure origins surface through the same
`BuildOutcome.failure` channel, and no partial buffer is ever returned in
those cases. -/
theorem build_failure_propagation (m : Measure) (data : ContractData)
    (popts : PdfOptions) (throwOn : Op → Option String) (events : List BEvent) :
    (∀ e, issueOps throwOn (buildDoc m data popts).1 = some e →
      build m data popts throwOn events = .failure e) ∧
    (issueOps throwOn (buildDoc m data popts).1 = none →
      ∀ (cs : List (List ℕ)) (e : String) (rest : List BEvent),
        events = cs.map BEvent.chunk ++ BEvent.failed e :: rest →
        build m data popts throwOn events = .failure e) := by
  constructor
  · intro e h
    rw [build, h]
  · intro h cs e rest hev
    rw [build, h, hev]
    exact settle_failed cs [] e rest

/-- Witness for C7: with a non-throwing backend whose only event is a
failure, the build reports that failure. -/
theorem build_failure_propagation_witness :
    build constMeasure sampleData {} (fun _ => none) [BEvent.failed "stream error"] =
      .failure "stream error" :=
  (build_failure_propagation constMeasure sampleData {} (fun _ => none)
    [BEvent.failed "stream error"]).2 (issueOps_none _) [] "stream error" [] rfl

/-- Claim C8: the core is deterministic; two builds from equal contract
data and equal options issue the identical operation trace and, against the
same backend behaviour, settle to the identical outcome. -/
theorem build_deterministic (m : Measure) (d1 d2 : ContractData)
    (o1 o2 : PdfOptions) (throwOn : Op → Option String) (events : List BEvent)
    (hd : d1 = d2) (ho : o1 = o2) :
    (buildDoc m d1 o1).1 = (buildDoc m d2 o2).1 ∧
    build m d1 o1 throwOn events = build m d2 o2 throwOn events := by
  subst hd; subst ho; exact ⟨rfl, rfl⟩

/-- Witness for C8 at a concrete input. -/
theorem build_deterministic_witness :
    (buildDoc constMeasure sampleData {}).1 = (buildDoc constMeasure sampleData {}).1 ∧
    build constMeasure sampleData {} (fun _ => none) [BEvent.ended] =
      build constMeasure sampleData {} (fun _ => none) [BEvent.ended] :=
  build_deterministic constMeasure sampleData sampleData {} {} (fun _ => none)
    [BEvent.ended] rfl rfl

/-! ## Helper lemmas: substrings and brace-freedom -/

theorem containsSub_subset {s pat : String} (h : containsSub s pat = true) :
    ∀ c ∈ pat.data, c ∈ s.data := by
  intro c hc
  rw [containsSub, List.any_eq_true] at h
  obtain ⟨i, -, hp⟩ := h
  have hpre : pat.data <+: s.data.drop i := by
    rwa [List.isPrefixOf_iff_prefix] at hp
  exact List.mem_of_mem_drop (hpre.subset hc)

theorem braceFree_mem {s : String} (h : braceFree s = true) :
    ∀ c ∈ s.data, c ≠ braceChar := by
  intro c hc
  rw [braceFree, List.all_eq_true] at h
  simpa using h c hc

theorem containsSub_eq_false_of_braceFree {s pat : String}
    (hs : braceFree s = true) (hb : braceChar ∈ pat.data) :
    containsSub s pat = false := by
  by_contra h
  rw [Bool.not_eq_false] at h
  exact braceFree_mem hs braceChar (containsSub_subset h braceChar hb) rfl

theorem braceFree_append (a b : String) :
    braceFree (a ++ b) = (braceFree a && braceFree b) := by
  simp [braceFree, String.data_append, List.all_append]

theorem isDigit_ne_brace {c : Char} (h : c.isDigit = true) : c ≠ braceChar := by
  intro he
  subst he
  exact absurd h (by decide)

theorem toDigitsCore_chars (b : ℕ) (fuel : ℕ) :
    ∀ (n : ℕ) (acc : List Char), ∀ c ∈ Nat.toDigitsCore b fuel n acc,
      (∃ k, c = Nat.digitChar k) ∨ c ∈ acc := by
  induction fuel with
  | zero => intro n acc c hc; exact Or.inr hc
  | succ fuel ih =>
    intro n acc c hc
    rw [Nat.toDigitsCore] at hc
    by_cases h : n / b = 0
    · rw [if_pos h] at hc
      rcases List.mem_cons.mp hc with rfl | hc
      · exact Or.inl ⟨n % b, rfl⟩
      · exact Or.inr hc
    · rw [if_neg h] at hc
      rcases ih (n / b) (Nat.digitChar (n % b) :: acc) c hc with h1 | h1
      · exact Or.inl h1
      · rcases List.mem_cons.mp h1 with rfl | h1
        · exact Or.inl ⟨n % b, rfl⟩
        · exact Or.inr h1

theorem digitChar_ne_brace (k : ℕ) : Nat.digitChar k ≠ braceChar := by
  by_cases h : k < 16
  · interval_cases k <;> decide
  · have : Nat.digitChar k = '*' := by
      rw [Nat.digitChar]
      have h0 : ¬(k = 0) := by omega
      have h1 : ¬(k = 1) := by omega
      have h2 : ¬(k = 2) := by omega
      have h3 : ¬(k = 3) := by omega
      have h4 : ¬(k = 4) := by omega
      have h5 : ¬(k = 5) := by omega
      have h6 : ¬(k = 6) := by omega
      have h7 : ¬(k = 7) := by omega
      have h8 : ¬(k = 8) := by omega
      have h9 : ¬(k = 9) := by omega
      have ha : ¬(k = 10) := by omega
      have hb : ¬(k = 11) := by omega
      have hc : ¬(k = 12) := by omega
      have hd : ¬(k = 13) := by omega
      have he : ¬(k = 14) := by omega
      have hf : ¬(k = 15) := by omega
      simp [h0, h1, h2, h3, h4, h5, h6, h7, h8, h9, ha, hb, hc, hd, he, hf]
    rw [this]
    decide

theorem braceFree_natRepr (n : ℕ) : braceFree (Nat.repr n) = true := by
  rw [braceFree, List.all_eq_true]
  intro c hc
  have hc' : c ∈ Nat.toDigits 10 n := by
    simpa [Nat.repr, List.asString] using hc
  rcases toDigitsCore_chars 10 (n + 1) n [] c hc' with ⟨k, rfl⟩ | h
  · simpa using digitChar_ne_brace k
  · simp at h

theorem braceFree_toString_nat (n : ℕ) : braceFree (toString n) = true :=
  braceFree_natRepr n

theorem braceFree_groupThousands (n : ℕ) : braceFree (groupThousands n) = true := by
  rw [braceFree, List.all_eq_true]
  intro c hc
  rcases groupThousands_chars n c hc with h | h
  · simpa using isDigit_ne_brace h
  · subst h; decide

theorem braceFree_twoDigits (n : ℕ) : braceFree (twoDigits n) = true := by
  rw [braceFree, List.all_eq_true]
  intro c hc
  simpa using isDigit_ne_brace (twoDigits_chars n c hc)

theorem braceFree_toLocale (q : ℚ) : braceFree (toLocaleStringNlNl q) = true := by
  unfold toLocaleStringNlNl
  rw [braceFree_append, braceFree_append, braceFree_append]
  rw [braceFree_groupThousands, braceFree_twoDigits]
  split <;> decide

/-! ## Helper lemmas: no segment mentions an anchor token -/

theorem opMentions_text_false {tok content : String} (hb : braceChar ∈ tok.data)
    (hc : braceFree content = true) (px py : Option ℚ) (o : TextOpts) :
    opMentions tok (Op.text content px py o) = false :=
  containsSub_eq_false_of_braceFree hc hb

/-- All eleven string fields of the contract data avoid the opening brace,
so no anchor token can occur in interpolated text. -/
def dataBraceFree (d : ContractData) : Bool :=
  braceFree d.clientName && braceFree d.clientAddress && braceFree d.clientCity &&
  braceFree d.clientEmail && braceFree d.providerName && braceFree d.providerAddress &&
  braceFree d.providerCity && braceFree d.contractNumber && braceFree d.effectiveDate &&
  braceFree d.projectDescription && braceFree d.paymentTerms

set_option maxRecDepth 40000 in
theorem braceFree_buildSections (data : ContractData)
    (hp : braceFree data.projectDescription = true)
    (ht : braceFree data.paymentTerms = true) :
    ∀ sec ∈ buildSections data,
      braceFree sec.title = true ∧ ∀ it ∈ sec.items, braceFree it = true := by
  intro sec hsec
  simp only [buildSections, List.mem_cons, List.not_mem_nil, or_false] at hsec
  rcases hsec with rfl | rfl | rfl | rfl | rfl | rfl | rfl <;>
    simp only [List.forall_mem_cons, List.forall_mem_nil, and_true] <;>
    and_intros <;>
    first
      | decide
      | (simp [braceFree_append, hp, ht, braceFree_toLocale] <;> decide)

theorem no_mention_renderItems (m : Measure) (tok : String) (hb : braceChar ∈ tok.data)
    (sn : ℕ) :
    ∀ (items : List String) (k : ℕ) (st : DocState),
      (∀ it ∈ items, braceFree it = true) →
      ∀ op ∈ (renderItems m sn k items st).1, opMentions tok op = false := by
  intro items
  induction items with
  | nil => intro k st _ op hop; simp [renderItems] at hop
  | cons it rest ih =>
    intro k st hbr op hop
    simp only [renderItems, doText, doMoveDown, List.append_assoc, List.cons_append,
      List.nil_append, List.mem_cons] at hop
    rcases hop with rfl | rfl | hop
    · refine opMentions_text_false hb ?_ _ _ _
      simp [braceFree_append, braceFree_toString_nat, hbr it (by simp)] <;> decide
    · rfl
    · exact ih (k + 1) _ (fun x hx => hbr x (by simp [hx])) op hop

theorem no_mention_renderSection (m : Measure) (tok : String) (hb : braceChar ∈ tok.data)
    (opts : ResolvedOptions) (n : ℕ) (sec : ContractSection) (st : DocState)
    (htitle : braceFree sec.title = true)
    (hitems : ∀ it ∈ sec.items, braceFree it = true) :
    ∀ op ∈ (renderSection m opts n sec st).1, opMentions tok op = false := by
  intro op hop
  have hdis : ∀ (o : TextOpts),
      opMentions tok (Op.text (toString n ++ ". " ++ sec.title) none none o) = false := by
    intro o
    refine opMentions_text_false hb ?_ _ _ _
    simp [braceFree_append, braceFree_toString_nat, htitle] <;> decide
  by_cases hc : st.y > st.pageHeight - opts.margin - 100
  · simp [renderSection, hc, doAddPage, doFontSize, doFont, doText, doMoveDown] at hop
    rcases hop with rfl | rfl | rfl | rfl | rfl | rfl | rfl | hop | rfl
    · rfl
    · rfl
    · rfl
    · exact hdis _
    · rfl
    · rfl
    · rfl
    · exact no_mention_renderItems m tok hb n sec.items 1 _ hitems op hop
    · rfl
  · simp [renderSection, hc, doFontSize, doFont, doText, doMoveDown] at hop
    rcases hop with rfl | rfl | rfl | rfl | rfl | rfl | hop | rfl
    · rfl
    · rfl
    · exact hdis _
    · rfl
    · rfl
    · rfl
    · exact no_mention_renderItems m tok hb n sec.items 1 _ hitems op hop
    · rfl

theorem no_mention_renderSectionList (m : Measure) (tok : String)
    (hb : braceChar ∈ tok.data) (opts : ResolvedOptions) :
    ∀ (sections : List ContractSection) (n : ℕ) (st : DocState),
      (∀ sec ∈ sections, braceFree sec.title = true ∧ ∀ it ∈ sec.items, braceFree it = true) →
      ∀ op ∈ (renderSectionList m opts n sections st).1, opMentions tok op = false := by
  intro sections
  induction sections with
  | nil => intro n st _ op hop; simp [renderSectionList] at hop
  | cons sec rest ih =>
    intro n st hsec op hop
    simp only [renderSectionList, List.mem_append] at hop
    rcases hop with hop | hop
    · exact no_mention_renderSection m tok hb opts n sec st
        (hsec sec (by simp)).1 (hsec sec (by simp)).2 op hop
    · exact ih (n + 1) _ (fun x hx => hsec x (by simp [hx])) op hop

set_option maxRecDepth 40000 in
theorem no_mention_renderHeader (m : Measure) (tok : String) (hb : braceChar ∈ tok.data)
    (data : ContractData) (st : DocState)
    (hcn : braceFree data.contractNumber = true) :
    ∀ op ∈ (renderHeader m data st).1, opMentions tok op = false := by
  intro op hop
  simp [renderHeader, doFontSize, doFont, doFillColor, doText, doMoveDown] at hop
  rcases hop with rfl | rfl | rfl | rfl | rfl | rfl | rfl | rfl | rfl | rfl
  all_goals first
    | rfl
    | (refine opMentions_text_false hb ?_ _ _ _; decide)
    | (refine opMentions_text_false hb ?_ _ _ _;
       simp [braceFree_append, hcn] <;> decide)

set_option maxRecDepth 40000 in
theorem no_mention_renderPreamble (m : Measure) (tok : String) (hb : braceChar ∈ tok.data)
    (data : ContractData) (st : DocState)
    (hed : braceFree data.effectiveDate = true)
    (hcna : braceFree data.clientName = true)
    (hcad : braceFree data.clientAddress = true)
    (hcci : braceFree data.clientCity = true)
    (hcem : braceFree data.clientEmail = true)
    (hpna : braceFree data.providerName = true)
    (hpad : braceFree data.providerAddress = true)
    (hpci : braceFree data.providerCity = true) :
    ∀ op ∈ (renderPreamble m data st).1, opMentions tok op = false := by
  intro op hop
  simp [renderPreamble, doFontSize, doFont, doText, doMoveDown] at hop
  rcases hop with rfl | rfl | rfl | rfl | rfl | rfl | rfl | rfl | rfl | rfl | rfl | rfl | rfl |
    rfl | rfl | rfl | rfl | rfl | rfl | rfl | rfl | rfl | rfl | rfl | rfl | rfl | rfl
  all_goals first
    | rfl
    | (refine opMentions_text_false hb ?_ _ _ _; decide)
    | (refine opMentions_text_false hb ?_ _ _ _;
       simp [braceFree_append, hed, hcna, hcad, hcci, hcem, hpna, hpad, hpci] <;> decide)

set_option maxRecDepth 40000 in
theorem no_mention_sigBlockIntro (m : Measure) (tok : String) (hb : braceChar ∈ tok.data)
    (opts : ResolvedOptions) (st : DocState) :
    ∀ op ∈ (sigBlockIntro m opts st).1, opMentions tok op = false := by
  intro op hop
  by_cases hc : st.y > st.pageHeight - opts.margin - 400
  · simp [sigBlockIntro, hc, doAddPage, doFontSize, doFont, doText, doMoveDown] at hop
    rcases hop with rfl | rfl | rfl | rfl | rfl | rfl
    all_goals first
      | rfl
      | (refine opMentions_text_false hb ?_ _ _ _; decide)
  · simp [sigBlockIntro, hc, doFontSize, doFont, doText, doMoveDown] at hop
    rcases hop with rfl | rfl | rfl | rfl | rfl
    all_goals first
      | rfl
      | (refine opMentions_text_false hb ?_ _ _ _; decide)

theorem no_mention_rowHead (tok : String) (hb : braceChar ∈ tok.data) (x y w : ℚ)
    (l : String) (hl : braceFree l = true) :
    ∀ op ∈ rowHead x y w l, opMentions tok op = false := by
  intro op hop
  simp [rowHead] at hop
  rcases hop with rfl | rfl | rfl
  · rfl
  · rfl
  · exact opMentions_text_false hb hl _ _ _

set_option maxRecDepth 40000 in
theorem no_mention_rowTail (tok : String) (hb : braceChar ∈ tok.data) (x y w : ℚ)
    (nm : String) (hn : braceFree nm = true) :
    ∀ op ∈ rowTail x y w nm, opMentions tok op = false := by
  intro op hop
  simp [rowTail] at hop
  rcases hop with rfl | rfl | rfl | rfl | rfl | rfl | rfl | rfl
  all_goals first
    | rfl
    | (refine opMentions_text_false hb ?_ _ _ _; decide)
    | (refine opMentions_text_false hb ?_ _ _ _;
       simp [braceFree_append, hn] <;> decide)

/-! ## Helper lemmas: the marker flag does not influence other segments -/

theorem initialState_flag (b b' : Bool) (mar : ℚ) (ps : PageSize) :
    initialState ⟨b, mar, ps⟩ = initialState ⟨b', mar, ps⟩ := rfl

theorem renderSection_flag (m : Measure) (b b' : Bool) (mar : ℚ) (ps : PageSize)
    (n : ℕ) (sec : ContractSection) (st : DocState) :
    renderSection m ⟨b, mar, ps⟩ n sec st = renderSection m ⟨b', mar, ps⟩ n sec st := rfl

theorem renderSectionList_flag (m : Measure) (b b' : Bool) (mar : ℚ) (ps : PageSize) :
    ∀ (sections : List ContractSection) (n : ℕ) (st : DocState),
      renderSectionList m ⟨b, mar, ps⟩ n sections st =
        renderSectionList m ⟨b', mar, ps⟩ n sections st := by
  intro sections
  induction sections with
  | nil => intro n st; rfl
  | cons sec rest ih =>
    intro n st
    simp only [renderSectionList, renderSection_flag m b b' mar ps, ih (n + 1)]

theorem sigBlockIntro_flag (m : Measure) (b b' : Bool) (mar : ℚ) (ps : PageSize)
    (st : DocState) :
    sigBlockIntro m ⟨b, mar, ps⟩ st = sigBlockIntro m ⟨b', mar, ps⟩ st := rfl

theorem no_mention_buildFrom_noMarkers (m : Measure) (tok : String)
    (hb : braceChar ∈ tok.data) (data : ContractData) (mar : ℚ) (ps : PageSize)
    (hd : dataBraceFree data = true) :
    ∀ op ∈ (buildFrom m ⟨false, mar, ps⟩ data).1, opMentions tok op = false := by
  rw [dataBraceFree] at hd
  simp only [Bool.and_eq_true] at hd
  obtain ⟨⟨⟨⟨⟨⟨⟨⟨⟨⟨h1, h2⟩, h3⟩, h4⟩, h5⟩, h6⟩, h7⟩, h8⟩, h9⟩, h10⟩, h11⟩ := hd
  intro op hop
  simp only [buildFrom, buildOps, renderSections, List.append_assoc, List.mem_append,
    List.mem_cons, List.not_mem_nil, or_false] at hop
  have hfalse : (⟨false, mar, ps⟩ : ResolvedOptions).includeSignatureMarkers = false := rfl
  rcases hop with hop | hop | hop | hop | rfl
  · exact no_mention_renderHeader m tok hb data _ h8 op hop
  · exact no_mention_renderPreamble m tok hb data _ h9 h1 h2 h3 h4 h5 h6 h7 op hop
  · exact no_mention_renderSectionList m tok hb _ (buildSections data) 1 _
      (braceFree_buildSections data h10 h11) op hop
  · simp only [renderSignatureBlock, renderSignatureRow_ops, hfalse, Bool.false_eq_true,
      if_false, List.append_nil, List.nil_append, List.append_assoc, List.mem_append] at hop
    rcases hop with hop | hop | hop | hop | hop
    · exact no_mention_sigBlockIntro m tok hb _ _ op hop
    · exact no_mention_rowHead tok hb _ _ _ "CLIENT" (by decide) op hop
    · exact no_mention_rowTail tok hb _ _ _ data.clientName h1 op hop
    · exact no_mention_rowHead tok hb _ _ _ "PROVIDER" (by decide) op hop
    · exact no_mention_rowTail tok hb _ _ _ data.providerName h5 op hop
  · rfl

/-! ## The stages of a no-marker build, used to decompose both traces -/

/-- Header stage of a build with markers disabled. -/
def stageH (m : Measure) (data : ContractData) (mar : ℚ) (ps : PageSize) :
    List Op × DocState :=
  renderHeader m data (initialState ⟨false, mar, ps⟩)

/-- Preamble stage. -/
def stageP (m : Measure) (data : ContractData) (mar : ℚ) (ps : PageSize) :
    List Op × DocState :=
  renderPreamble m data (stageH m data mar ps).2

/-- Sections stage. -/
def stageS (m : Measure) (data : ContractData) (mar : ℚ) (ps : PageSize) :
    List Op × DocState :=
  renderSectionList m ⟨false, mar, ps⟩ 1 (buildSections data) (stageP m data mar ps).2

/-- Signature-block intro stage. -/
def stageI (m : Measure) (data : ContractData) (mar : ℚ) (ps : PageSize) :
    List Op × DocState :=
  sigBlockIntro m ⟨false, mar, ps⟩ (stageS m data mar ps).2

/-- Left edge of the signature rows. -/
def blockX (m : Measure) (data : ContractData) (mar : ℚ) (ps : PageSize) : ℚ :=
  (stageS m data mar ps).2.marginLeft

/-- Starting `y` of the client signature row. -/
def blockY (m : Measure) (data : ContractData) (mar : ℚ) (ps : PageSize) : ℚ :=
  (stageI m data mar ps).2.y

/-- Width of the signature rows. -/
def blockW (m : Measure) (data : ContractData) (mar : ℚ) (ps : PageSize) : ℚ :=
  ((stageS m data mar ps).2.pageWidth - (stageS m data mar ps).2.marginLeft -
    (stageS m data mar ps).2.marginRight) * 0.75

/-- All operations up to and including the client row's role label. -/
def segA (m : Measure) (data : ContractData) (mar : ℚ) (ps : PageSize) : List Op :=
  (stageH m data mar ps).1 ++ (stageP m data mar ps).1 ++ (stageS m data mar ps).1 ++
    (stageI m data mar ps).1 ++
    rowHead (blockX m data mar ps) (blockY m data mar ps) (blockW m data mar ps) "CLIENT"

/-- The operations between the two marker positions. -/
def segB (m : Measure) (data : ContractData) (mar : ℚ) (ps : PageSize) : List Op :=
  rowTail (blockX m data mar ps) (blockY m data mar ps) (blockW m data mar ps)
      data.clientName ++
    rowHead (blockX m data mar ps) (blockY m data mar ps + 170) (blockW m data mar ps)
      "PROVIDER"

/-- The operations after the provider marker position. -/
def segC (m : Measure) (data : ContractData) (mar : ℚ) (ps : PageSize) : List Op :=
  rowTail (blockX m data mar ps) (blockY m data mar ps + 170) (blockW m data mar ps)
      data.providerName ++ [Op.endDoc]

theorem buildFrom_false_decomp (m : Measure) (data : ContractData) (mar : ℚ)
    (ps : PageSize) :
    (buildFrom m ⟨false, mar, ps⟩ data).1 =
      segA m data mar ps ++ segB m data mar ps ++ segC m data mar ps := by
  have hfalse : (⟨false, mar, ps⟩ : ResolvedOptions).includeSignatureMarkers = false := rfl
  simp only [buildFrom, buildOps, renderSections, renderSignatureBlock,
    renderSignatureRow_ops, hfalse, Bool.false_eq_true, if_false,
    segA, segB, segC, stageH, stageP, stageS, stageI, blockX, blockY, blockW,
    List.append_nil, List.nil_append, List.append_assoc]

theorem buildFrom_true_decomp (m : Measure) (data : ContractData) (mar : ℚ)
    (ps : PageSize) :
    (buildFrom m ⟨true, mar, ps⟩ data).1 =
      segA m data mar ps ++
      sigMarkerOps (blockX m data mar ps) (blockY m data mar ps) clientToken ++
      segB m data mar ps ++
      sigMarkerOps (blockX m data mar ps) (blockY m data mar ps + 170) providerToken ++
      segC m data mar ps := by
  have htrue : (⟨true, mar, ps⟩ : ResolvedOptions).includeSignatureMarkers = true := rfl
  simp only [buildFrom, buildOps, renderSections, renderSignatureBlock]
  rw [initialState_flag true false mar ps]
  rw [renderSectionList_flag m true false mar ps]
  rw [sigBlockIntro_flag m true false mar ps]
  simp only [renderSignatureRow_ops, htrue, if_true,
    segA, segB, segC, stageH, stageP, stageS, stageI, blockX, blockY, blockW,
    List.append_nil, List.nil_append, List.append_assoc]

theorem countP_client_in_clientMarker (x y : ℚ) :
    (sigMarkerOps x y clientToken).countP (opMentions clientToken) = 1 := by
  have h : containsSub clientToken clientToken = true := by decide
  simp [sigMarkerOps, List.countP_cons, List.countP_nil, opMentions, h]

theorem countP_client_in_providerMarker (x y : ℚ) :
    (sigMarkerOps x y providerToken).countP (opMentions clientToken) = 0 := by
  have h : containsSub providerToken clientToken = false := by decide
  simp [sigMarkerOps, List.countP_cons, List.countP_nil, opMentions, h]

theorem countP_provider_in_clientMarker (x y : ℚ) :
    (sigMarkerOps x y clientToken).countP (opMentions providerToken) = 0 := by
  have h : containsSub clientToken providerToken = false := by decide
  simp [sigMarkerOps, List.countP_cons, List.countP_nil, opMentions, h]

theorem countP_provider_in_providerMarker (x y : ℚ) :
    (sigMarkerOps x y providerToken).countP (opMentions providerToken) = 1 := by
  have h : containsSub providerToken providerToken = true := by decide
  simp [sigMarkerOps, List.countP_cons, List.countP_nil, opMentions, h]

/-! ## Claim theorems: the marker toggle -/

/-- Claim C3, amended: provided no string field of the contract data
contains an opening brace (without that restriction the claim fails — see
the counterexample, where a client name equal to the client anchor token is
printed by the preamble even with markers disabled), the build with markers
disabled contains no operation mentioning either anchor token; with markers
enabled each token appears in exactly one operation; and the two traces
agree on every other operation — the marker-enabled trace is the marker-free
trace with exactly the two four-operation marker blocks spliced in, the
second `170` points below the first, so positions, offsets and row heights
are identical in both configurations. -/
theorem marker_presence_toggle (m : Measure) (data : ContractData) (mar : ℚ)
    (ps : PageSize) (hd : dataBraceFree data = true) :
    ∃ A B C : List Op, ∃ x y1 : ℚ,
      (buildFrom m ⟨true, mar, ps⟩ data).1 =
        A ++ sigMarkerOps x y1 clientToken ++ B ++
          sigMarkerOps x (y1 + 170) providerToken ++ C ∧
      (buildFrom m ⟨false, mar, ps⟩ data).1 = A ++ B ++ C ∧
      (buildFrom m ⟨true, mar, ps⟩ data).1.countP (opMentions clientToken) = 1 ∧
      (buildFrom m ⟨true, mar, ps⟩ data).1.countP (opMentions providerToken) = 1 ∧
      ∀ op ∈ (buildFrom m ⟨false, mar, ps⟩ data).1,
        opMentions clientToken op = false ∧ opMentions providerToken op = false := by
  have hnoC := no_mention_buildFrom_noMarkers m clientToken (by decide) data mar ps hd
  have hnoP := no_mention_buildFrom_noMarkers m providerToken (by decide) data mar ps hd
  refine ⟨segA m data mar ps, segB m data mar ps, segC m data mar ps,
    blockX m data mar ps, blockY m data mar ps,
    buildFrom_true_decomp m data mar ps, buildFrom_false_decomp m data mar ps, ?_, ?_,
    fun op hop => ⟨hnoC op hop, hnoP op hop⟩⟩
  · have hz : (buildFrom m ⟨false, mar, ps⟩ data).1.countP (opMentions clientToken) = 0 :=
      List.countP_eq_zero.mpr (fun a ha => by simp [hnoC a ha])
    rw [buildFrom_false_decomp] at hz
    simp only [List.countP_append] at hz
    rw [buildFrom_true_decomp]
    simp only [List.countP_append, countP_client_in_clientMarker,
      countP_client_in_providerMarker]
    omega
  · have hz : (buildFrom m ⟨false, mar, ps⟩ data).1.countP (opMentions providerToken) = 0 :=
      List.countP_eq_zero.mpr (fun a ha => by simp [hnoP a ha])
    rw [buildFrom_false_decomp] at hz
    simp only [List.countP_append] at hz
    rw [buildFrom_true_decomp]
    simp only [List.countP_append, countP_provider_in_clientMarker,
      countP_provider_in_providerMarker]
    omega

set_option maxRecDepth 40000 in
/-- Counterexample to C3 as stated: with markers disabled but a client name
equal to the literal client anchor token, the produced trace does contain a
text operation whose content contains that token (the preamble prints the
client name verbatim), contradicting the unconditional claim. -/
theorem marker_presence_toggle_counterexample :
    ∃ op ∈ (buildFrom constMeasure ⟨false, 72, PageSize.A4⟩
        { sampleData with clientName := "\x7b\x7bClientSignature\x7d\x7d" }).1,
      opMentions clientToken op = true := by
  refine ⟨Op.text "\x7b\x7bClientSignature\x7d\x7d" none none {}, ?_, by decide⟩
  simp only [buildFrom, buildOps, List.append_assoc, List.mem_append]
  refine Or.inr (Or.inl ?_)
  simp [renderPreamble, doFontSize, doFont, doText, doMoveDown]

set_option maxRecDepth 40000 in
/-- Witness for the amended C3 at a concrete brace-free input. -/
theorem marker_presence_toggle_witness :
    ∃ A B C : List Op, ∃ x y1 : ℚ,
      (buildFrom constMeasure ⟨true, 72, PageSize.A4⟩ sampleData).1 =
        A ++ sigMarkerOps x y1 clientToken ++ B ++
          sigMarkerOps x (y1 + 170) providerToken ++ C ∧
      (buildFrom constMeasure ⟨false, 72, PageSize.A4⟩ sampleData).1 = A ++ B ++ C ∧
      (buildFrom constMeasure ⟨true, 72, PageSize.A4⟩ sampleData).1.countP
        (opMentions clientToken) = 1 ∧
      (buildFrom constMeasure ⟨true, 72, PageSize.A4⟩ sampleData).1.countP
        (opMentions providerToken) = 1 ∧
      ∀ op ∈ (buildFrom constMeasure ⟨false, 72, PageSize.A4⟩ sampleData).1,
        opMentions clientToken op = false ∧ opMentions providerToken op = false :=
  marker_presence_toggle constMeasure sampleData 72 PageSize.A4 (by decide)

/-! ## Helper lemmas: fill-colour tracking -/

/-- `true` iff the operation changes the fill colour. -/
def setsFill : Op → Bool
  | .setFillColor _ => true
  | _ => false

theorem nextColor_const {op : Op} (h : setsFill op = false) (c : String) :
    nextColor op c = c := by
  cases op <;> first | rfl | simp [setsFill] at h

theorem fillAnnot_append :
    ∀ (l1 l2 : List Op) (c : String),
      fillAnnot (l1 ++ l2) c = fillAnnot l1 c ++ fillAnnot l2 (colorAfter l1 c) := by
  intro l1
  induction l1 with
  | nil => intro l2 c; rfl
  | cons op rest ih =>
    intro l2 c
    simp [fillAnnot, colorAfter, ih]

theorem mem_fillAnnot_const :
    ∀ (l : List Op) (c : String), (∀ op ∈ l, setsFill op = false) →
      ∀ p ∈ fillAnnot l c, p.2 = c ∧ p.1 ∈ l := by
  intro l
  induction l with
  | nil => intro c _ p hp; simp [fillAnnot] at hp
  | cons op rest ih =>
    intro c hns p hp
    have hop : setsFill op = false := hns op (by simp)
    rw [fillAnnot, nextColor_const hop] at hp
    rcases List.mem_cons.mp hp with rfl | hp
    · exact ⟨rfl, by simp⟩
    · have := ih c (fun x hx => hns x (by simp [hx])) p hp
      exact ⟨this.1, by simp [this.2]⟩

theorem colorAfter_const :
    ∀ (l : List Op) (c : String), (∀ op ∈ l, setsFill op = false) →
      colorAfter l c = c := by
  intro l
  induction l with
  | nil => intro c _; rfl
  | cons op rest ih =>
    intro c hns
    have hop : setsFill op = false := hns op (by simp)
    rw [colorAfter, nextColor_const hop]
    exact ih c (fun x hx => hns x (by simp [hx]))

theorem noSetFill_renderItems (m : Measure) (sn : ℕ) :
    ∀ (items : List String) (k : ℕ) (st : DocState),
      ∀ op ∈ (renderItems m sn k items st).1, setsFill op = false := by
  intro items
  induction items with
  | nil => intro k st op hop; simp [renderItems] at hop
  | cons it rest ih =>
    intro k st op hop
    simp only [renderItems, doText, doMoveDown, List.append_assoc, List.cons_append,
      List.nil_append, List.mem_cons] at hop
    rcases hop with rfl | rfl | hop
    · rfl
    · rfl
    · exact ih (k + 1) _ op hop

theorem noSetFill_renderSection (m : Measure) (opts : ResolvedOptions) (n : ℕ)
    (sec : ContractSection) (st : DocState) :
    ∀ op ∈ (renderSection m opts n sec st).1, setsFill op = false := by
  intro op hop
  by_cases hc : st.y > st.pageHeight - opts.margin - 100
  · simp [renderSection, hc, doAddPage, doFontSize, doFont, doText, doMoveDown] at hop
    rcases hop with rfl | rfl | rfl | rfl | rfl | rfl | rfl | hop | rfl
    any_goals rfl
    exact noSetFill_renderItems m n sec.items 1 _ op hop
  · simp [renderSection, hc, doFontSize, doFont, doText, doMoveDown] at hop
    rcases hop with rfl | rfl | rfl | rfl | rfl | rfl | hop | rfl
    any_goals rfl
    exact noSetFill_renderItems m n sec.items 1 _ op hop

theorem noSetFill_renderSectionList (m : Measure) (opts : ResolvedOptions) :
    ∀ (sections : List ContractSection) (n : ℕ) (st : DocState),
      ∀ op ∈ (renderSectionList m opts n sections st).1, setsFill op = false := by
  intro sections
  induction sections with
  | nil => intro n st op hop; simp [renderSectionList] at hop
  | cons sec rest ih =>
    intro n st op hop
    simp only [renderSectionList, List.mem_append] at hop
    rcases hop with hop | hop
    · exact noSetFill_renderSection m opts n sec st op hop
    · exact ih (n + 1) _ op hop

theorem noSetFill_renderPreamble (m : Measure) (data : ContractData) (st : DocState) :
    ∀ op ∈ (renderPreamble m data st).1, setsFill op = false := by
  intro op hop
  simp [renderPreamble, doFontSize, doFont, doText, doMoveDown] at hop
  rcases hop with rfl | rfl | rfl | rfl | rfl | rfl | rfl | rfl | rfl | rfl | rfl | rfl | rfl |
    rfl | rfl | rfl | rfl | rfl | rfl | rfl | rfl | rfl | rfl | rfl | rfl | rfl | rfl
  all_goals rfl

theorem noSetFill_sigBlockIntro (m : Measure) (opts : ResolvedOptions) (st : DocState) :
    ∀ op ∈ (sigBlockIntro m opts st).1, setsFill op = false := by
  intro op hop
  by_cases hc : st.y > st.pageHeight - opts.margin - 400
  · simp [sigBlockIntro, hc, doAddPage, doFontSize, doFont, doText, doMoveDown] at hop
    rcases hop with rfl | rfl | rfl | rfl | rfl | rfl
    all_goals rfl
  · simp [sigBlockIntro, hc, doFontSize, doFont, doText, doMoveDown] at hop
    rcases hop with rfl | rfl | rfl | rfl | rfl
    all_goals rfl

/-- The fill-colour discipline: an operation executed with a non-black fill
is either the grey contract-number line of the header or a white anchor
marker; in particular every ruled line (`stroke`) and every other text draw
happens with black fill in effect. -/
def blackOrException (data : ContractData) (p : Op × String) : Prop :=
  (p.1 = Op.stroke → p.2 = "#000000") ∧
  (∀ s px py o, p.1 = Op.text s px py o →
    p.2 = "#000000" ∨
    (p.2 = "#666666" ∧ s = "Contract No: " ++ data.contractNumber) ∨
    (p.2 = "#ffffff" ∧ (s = clientToken ∨ s = providerToken)))

theorem blackOrException_of_black (data : ContractData) (p : Op × String)
    (h : p.2 = "#000000") : blackOrException data p :=
  ⟨fun _ => h, fun _ _ _ _ _ => Or.inl h⟩

theorem colorAfter_renderHeader (m : Measure) (data : ContractData) (st : DocState)
    (c : String) : colorAfter (renderHeader m data st).1 c = "#000000" := by
  simp [renderHeader, doFontSize, doFont, doFillColor, doText, doMoveDown,
    colorAfter, nextColor]

theorem fillAnnot_renderHeader (m : Measure) (data : ContractData) (st : DocState) :
    ∀ p ∈ fillAnnot (renderHeader m data st).1 "#000000", blackOrException data p := by
  intro p hp
  simp [renderHeader, doFontSize, doFont, doFillColor, doText, doMoveDown,
    fillAnnot, nextColor] at hp
  rcases hp with rfl | rfl | rfl | rfl | rfl | rfl | rfl | rfl | rfl | rfl
  case _ => exact blackOrException_of_black data _ rfl
  case _ => exact blackOrException_of_black data _ rfl
  case _ => exact blackOrException_of_black data _ rfl
  case _ => exact blackOrException_of_black data _ rfl
  case _ => exact blackOrException_of_black data _ rfl
  case _ => exact blackOrException_of_black data _ rfl
  case _ => exact blackOrException_of_black data _ rfl
  case _ =>
    refine ⟨fun h => by simp at h, fun s px py o h => ?_⟩
    simp only [Op.text.injEq] at h
    exact Or.inr (Or.inl ⟨rfl, h.1.symm⟩)
  case _ => exact ⟨fun h => by simp at h, fun s px py o h => by simp at h⟩
  case _ => exact blackOrException_of_black data _ rfl

theorem colorAfter_row_black (m : Measure) (opts : ResolvedOptions) (x y w : ℚ)
    (l nm mk : String) (st : DocState) :
    colorAfter (renderSignatureRow m opts x y w l nm mk st).1 "#000000" = "#000000" := by
  rw [renderSignatureRow_ops]
  by_cases h : opts.includeSignatureMarkers = true <;>
    simp [h, rowHead, sigMarkerOps, rowTail, colorAfter, nextColor]

theorem fillAnnot_row_black (m : Measure) (opts : ResolvedOptions) (x y w : ℚ)
    (l nm mk : String) (st : DocState) :
    ∀ p ∈ fillAnnot (renderSignatureRow m opts x y w l nm mk st).1 "#000000",
      p.2 = "#000000" ∨
      (p.2 = "#ffffff" ∧
        (p.1 = Op.text mk (some x) (some (y + 25)) {} ∨
          p.1 = Op.setFillColor "#000000")) := by
  intro p hp
  rw [renderSignatureRow_ops] at hp
  by_cases h : opts.includeSignatureMarkers = true <;>
    simp [h, rowHead, sigMarkerOps, rowTail, fillAnnot, nextColor] at hp
  · rcases hp with rfl | rfl | rfl | rfl | rfl | rfl | rfl | rfl | rfl | rfl | rfl | rfl |
      rfl | rfl | rfl
    all_goals first
      | exact Or.inl rfl
      | exact Or.inr ⟨rfl, Or.inl rfl⟩
      | exact Or.inr ⟨rfl, Or.inr rfl⟩
  · rcases hp with rfl | rfl | rfl | rfl | rfl | rfl | rfl | rfl | rfl | rfl | rfl
    all_goals exact Or.inl rfl

theorem blackOrException_of_marker (data : ContractData) (p : Op × String)
    (mk : String) (x y : ℚ) (hmk : mk = clientToken ∨ mk = providerToken)
    (h2 : p.2 = "#ffffff") (h1 : p.1 = Op.text mk (some x) (some y) {}) :
    blackOrException data p := by
  constructor
  · intro h; rw [h1] at h; simp at h
  · intro s px py o h
    rw [h1] at h
    simp only [Op.text.injEq] at h
    exact Or.inr (Or.inr ⟨h2, h.1 ▸ hmk⟩)

theorem fillAnnot_sigBlock (m : Measure) (opts : ResolvedOptions) (data : ContractData)
    (st : DocState) :
    ∀ p ∈ fillAnnot (renderSignatureBlock m opts data st).1 "#000000",
      blackOrException data p := by
  intro p hp
  simp only [renderSignatureBlock, fillAnnot_append, List.append_assoc] at hp
  rw [colorAfter_const _ _ (noSetFill_sigBlockIntro m opts _)] at hp
  rw [colorAfter_row_black] at hp
  simp only [List.mem_append] at hp
  rcases hp with hp | hp | hp
  · exact blackOrException_of_black data p
      (mem_fillAnnot_const _ _ (noSetFill_sigBlockIntro m opts _) p hp).1
  · rcases fillAnnot_row_black m opts _ _ _ _ _ _ _ p hp with h | ⟨h2, h1 | h1⟩
    · exact blackOrException_of_black data p h
    · exact blackOrException_of_marker data p clientToken _ _ (Or.inl rfl) h2 h1
    · exact ⟨fun h => by rw [h1] at h; simp at h,
        fun s px py o h => by rw [h1] at h; simp at h⟩
  · rcases fillAnnot_row_black m opts _ _ _ _ _ _ _ p hp with h | ⟨h2, h1 | h1⟩
    · exact blackOrException_of_black data p h
    · exact blackOrException_of_marker data p providerToken _ _ (Or.inr rfl) h2 h1
    · exact ⟨fun h => by rw [h1] at h; simp at h,
        fun s px py o h => by rw [h1] at h; simp at h⟩

/-! ## Claim theorems: fill-colour discipline -/

/-- Claim C10: in the whole build trace, starting from the default black
fill, every operation that runs with a non-black fill colour in effect is
either the grey contract-number header line (drawn grey by design, with
black restored immediately after) or a white anchor-marker draw (with black
restored immediately after); every `stroke` (the signature rule lines) and
every other text draw — in particular the Name/Title/Date lines of both
signature rows, under both marker settings — runs with black fill. -/
theorem fill_color_restored (m : Measure) (data : ContractData)
    (opts : ResolvedOptions) :
    ∀ p ∈ fillAnnot (buildFrom m opts data).1 "#000000", blackOrException data p := by
  intro p hp
  simp only [buildFrom, buildOps, renderSections, fillAnnot_append,
    List.append_assoc] at hp
  rw [colorAfter_renderHeader] at hp
  rw [colorAfter_const _ _ (noSetFill_renderPreamble m data _)] at hp
  rw [colorAfter_const _ _ (noSetFill_renderSectionList m opts (buildSections data) 1 _)] at hp
  simp only [List.mem_append] at hp
  rcases hp with hp | hp | hp | hp | hp
  · exact fillAnnot_renderHeader m data _ p hp
  · exact blackOrException_of_black data p
      (mem_fillAnnot_const _ _ (noSetFill_renderPreamble m data _) p hp).1
  · exact blackOrException_of_black data p
      (mem_fillAnnot_const _ _ (noSetFill_renderSectionList m opts (buildSections data) 1 _) p hp).1
  · exact fillAnnot_sigBlock m opts data _ p hp
  · simp only [fillAnnot, List.mem_singleton] at hp
    subst hp
    exact ⟨fun h => by simp at h, fun s px py o h => by simp at h⟩

/-- Witness for C10: the title draw runs with black fill in effect. -/
theorem fill_color_restored_witness :
    blackOrException sampleData
      (Op.text "SERVICE AGREEMENT" none none { align := some Align.center }, "#000000") := by
  refine fill_color_restored constMeasure sampleData (resolveOptions {}) _ ?_
  simp [buildFrom, buildOps, renderHeader, doFontSize, doFont, doFillColor, doText,
    doMoveDown, fillAnnot, nextColor]

end ContractPdf
